import Mathlib

/-!
Verification development for the wind-tunnel mesh preprocessing pipeline.

The definitions below are a shallow embedding of the Python sources
`src/windtunnel/pre_processing.py` and `src/windtunnel/display.py`.
Mesh coordinates are modelled as exact rationals; pyvista meshes are
records of points, a flat face array and per-cell types; library calls
whose internals are external (slicing, Delaunay fill, polygon Boolean
union) are modelled as parameters or, for the union, as set union with
Lebesgue measure as area.
-/

namespace WindTunnel

/-- A 3D point with exact rational coordinates. -/
abbrev Point3 := ℚ × ℚ × ℚ

/-- The cell types that matter to `save_mesh_obj`; pyvista has many more,
all collapsed into `other` with the vertex count. -/
inductive CellType where
  | triangle : CellType
  | quad : CellType
  | other : Nat → CellType
deriving DecidableEq, Repr

/-- Embedding of a `pyvista.PolyData` mesh: an ordered point list, the flat
faces array (each face record starts with its vertex count, pyvista style)
and the per-cell types. -/
structure Mesh where
  points : List Point3
  faces : List Nat := []
  cellTypes : List CellType := []
deriving DecidableEq, Repr

/-- Minimum of a rational list, `0` on the empty list (pyvista bounds of an
empty mesh are a sentinel; all theorems below assume a nonempty mesh). -/
def listMinD : List ℚ → ℚ
  | [] => 0
  | a :: t => t.foldl min a

/-- Maximum of a rational list, `0` on the empty list. -/
def listMaxD : List ℚ → ℚ
  | [] => 0
  | a :: t => t.foldl max a

/-- The x coordinates of a mesh's points. -/
def meshXs (m : Mesh) : List ℚ := m.points.map fun p => p.1

/-- The y coordinates of a mesh's points. -/
def meshYs (m : Mesh) : List ℚ := m.points.map fun p => p.2.1

/-- The z coordinates of a mesh's points. -/
def meshZs (m : Mesh) : List ℚ := m.points.map fun p => p.2.2

/-- `mesh.bounds[0]`: minimal x coordinate. -/
def xMin (m : Mesh) : ℚ := listMinD (meshXs m)

/-- `mesh.bounds[1]`: maximal x coordinate. -/
def xMax (m : Mesh) : ℚ := listMaxD (meshXs m)

/-- `mesh.bounds[2]`: minimal y coordinate. -/
def yMin (m : Mesh) : ℚ := listMinD (meshYs m)

/-- `mesh.bounds[3]`: maximal y coordinate. -/
def yMax (m : Mesh) : ℚ := listMaxD (meshYs m)

/-- `mesh.bounds[4]`: minimal z coordinate. -/
def zMin (m : Mesh) : ℚ := listMinD (meshZs m)

/-- `mesh.bounds[5]`: maximal z coordinate. -/
def zMax (m : Mesh) : ℚ := listMaxD (meshZs m)

/-- x extent `mesh.bounds[1] - mesh.bounds[0]` as in `_get_scaling_factor`. -/
def xDimension (m : Mesh) : ℚ := xMax m - xMin m

/-- y extent `mesh.bounds[3] - mesh.bounds[2]`. -/
def yDimension (m : Mesh) : ℚ := yMax m - yMin m

/-- z extent `mesh.bounds[5] - mesh.bounds[4]`. -/
def zDimension (m : Mesh) : ℚ := zMax m - zMin m

/-- `_get_scaling_factor(mesh, max_dimensions)` from `pre_processing.py`:
per-axis ratios of target extent to mesh extent, then the most
restrictive (smallest) one. -/
def _get_scaling_factor (m : Mesh) (max_dimensions : ℚ × ℚ × ℚ) : ℚ :=
  let scaling_factor_x := max_dimensions.1 / xDimension m
  let scaling_factor_y := max_dimensions.2.1 / yDimension m
  let scaling_factor_z := max_dimensions.2.2 / zDimension m
  min scaling_factor_x (min scaling_factor_y scaling_factor_z)

/-- pyvista `mesh.scale(factor, inplace)`. Returns the scaled mesh and the
state of the argument object after the call: pyvista mutates the argument
only when `inplace` is true (the default is false). -/
def pv_scale (m : Mesh) (factor : ℚ) (inplace : Bool) : Mesh × Mesh :=
  let res : Mesh := { m with
    points := m.points.map fun p => (factor * p.1, factor * p.2.1, factor * p.2.2) }
  (res, if inplace then res else m)

/-- pyvista `mesh.translate(v, inplace)`, with the same effect convention
as `pv_scale`. -/
def pv_translate (m : Mesh) (v : ℚ × ℚ × ℚ) (inplace : Bool) : Mesh × Mesh :=
  let res : Mesh := { m with
    points := m.points.map fun p => (p.1 + v.1, p.2.1 + v.2.1, p.2.2 + v.2.2) }
  (res, if inplace then res else m)

/-- `normalize_mesh(mesh, max_dimensions)` together with the state of the
argument object after the call (last component). The code calls
`mesh.scale(scaling_factor)` with pyvista's default `inplace=False`. -/
def normalize_mesh_full (m : Mesh) (max_dimensions : ℚ × ℚ × ℚ) :
    (Mesh × ℚ) × Mesh :=
  let scaling_factor := _get_scaling_factor m max_dimensions
  let r := pv_scale m scaling_factor false
  ((r.1, scaling_factor), r.2)

/-- `normalize_mesh(mesh, max_dimensions)`: the pair the function returns. -/
def normalize_mesh (m : Mesh) (max_dimensions : ℚ × ℚ × ℚ) : Mesh × ℚ :=
  (normalize_mesh_full m max_dimensions).1

/-- `move_mesh_to_origin(mesh)` together with the state of the argument
object after the call (last component). The code calls
`mesh.translate(displace_vector)` with pyvista's default `inplace=False`. -/
def move_mesh_to_origin_full (m : Mesh) : (Mesh × (ℚ × ℚ × ℚ)) × Mesh :=
  let z_displace := zMin m
  let y_displace := (yMin m + yMax m) / 2
  let x_displace := (xMin m + xMax m) / 2
  let displace_vector := (-x_displace, -y_displace, -z_displace)
  let r := pv_translate m displace_vector false
  ((r.1, displace_vector), r.2)

/-- `move_mesh_to_origin(mesh)`: the pair the function returns. -/
def move_mesh_to_origin (m : Mesh) : Mesh × (ℚ × ℚ × ℚ) :=
  (move_mesh_to_origin_full m).1

/-- `NUM_DECIMATION_CELLS` from `pre_processing.py`. -/
def NUM_DECIMATION_CELLS : ℕ := 5000

/-- `decimation_factor = 1 - (NUM_DECIMATION_CELLS / mesh.n_cells)` with
exact rational division (Python true division). -/
def decimation_factor (n_cells : ℕ) : ℚ :=
  1 - ((NUM_DECIMATION_CELLS : ℚ) / (n_cells : ℚ))

/-- Which mesh-reduction operations `compute_projected_area` invokes before
projecting. `decimateFactor = some f` records that `mesh.decimate(f)` was
called. -/
structure DecimationTrace where
  triangulateInvoked : Bool
  decimateFactor : Option ℚ
deriving DecidableEq, Repr

/-- The triangulate/decimate prefix of `compute_projected_area`
(`pre_processing.py` lines 121-125): `mesh.triangulate()` runs exactly when
`decimation_factor < 1`, and `mesh.decimate(decimation_factor)` runs
unconditionally. -/
def projected_area_decimation (n_cells : ℕ) : DecimationTrace :=
  let f := decimation_factor n_cells
  { triangulateInvoked := decide (f < 1), decimateFactor := some f }

/-- The projection plane labels accepted by `compute_projected_area`.
An arbitrary string is accepted by the Python function; `none` models the
`ValueError` branch for anything other than `'X'`, `'Y'`, `'Z'`. -/
inductive Axis where
  | X : Axis
  | Y : Axis
  | Z : Axis
deriving DecidableEq, Repr

/-- A 3D point with real coordinates, for the area computations. -/
abbrev RPoint3 := ℝ × ℝ × ℝ

/-- A 3D triangle (as produced by `mesh_2d.triangulate().regular_faces`). -/
abbrev RTri3 := RPoint3 × RPoint3 × RPoint3

/-- Coordinate selection `points[tri][:, indices]` of
`compute_projected_area`: `X ↦ [1,2]`, `Y ↦ [0,2]`, `Z ↦ [0,1]`. -/
def projPoint (a : Axis) (p : RPoint3) : ℝ × ℝ :=
  match a with
  | .X => (p.2.1, p.2.2)
  | .Y => (p.1, p.2.2)
  | .Z => (p.1, p.2.1)

/-- Project all three vertices of a triangle. -/
def projTri (a : Axis) (t : RTri3) : (ℝ × ℝ) × (ℝ × ℝ) × (ℝ × ℝ) :=
  (projPoint a t.1, projPoint a t.2.1, projPoint a t.2.2)

/-- `shapely.Polygon` on three 2D points: the closed triangle, i.e. the
convex hull of the vertices (shapely is external; the polygon's point set
is its specification). -/
noncomputable def trianglePolygon (a b c : ℝ × ℝ) : Set (ℝ × ℝ) :=
  convexHull ℝ {a, b, c}

/-- `shapely.union_all(polys).area`: the Lebesgue area of the union of the
triangle polygons (the Boolean union is external; set union with planar
Lebesgue measure is its specification). -/
noncomputable def polygonUnionArea (ts : List ((ℝ × ℝ) × (ℝ × ℝ) × (ℝ × ℝ))) : ENNReal :=
  MeasureTheory.volume (⋃ t ∈ ts, trianglePolygon t.1 t.2.1 t.2.2)

/-- Sum of the individual triangle-polygon areas (what a naive
area-accumulation would return instead of the union). -/
noncomputable def polygonSumArea (ts : List ((ℝ × ℝ) × (ℝ × ℝ) × (ℝ × ℝ))) : ENNReal :=
  (ts.map fun t => MeasureTheory.volume (trianglePolygon t.1 t.2.1 t.2.2)).sum

/-- The projection/union core of `compute_projected_area` (lines 127-134),
taking the triangle list the decimated mesh's triangulation produced:
project every vertex, build one polygon per triangle, return the area of
the union of all of them. -/
noncomputable def compute_projected_area (tris : List RTri3) (a : Axis) : ENNReal :=
  polygonUnionArea (tris.map (projTri a))

/-- The naive per-triangle sum of projected areas, for comparison. -/
noncomputable def naiveProjectedSum (tris : List RTri3) (a : Axis) : ENNReal :=
  polygonSumArea (tris.map (projTri a))

/-- A self-occluding silhouette: two parallel triangular plates at z = 0
and z = 1 whose Z projections coincide, so the projected triangle
polygons overlap completely. -/
def overlapTris : List RTri3 :=
  [((0, 0, 0), (1, 0, 0), (0, 1, 0)), ((0, 0, 1), (1, 0, 1), (0, 1, 1))]

/-- Helper for `chunkRows`, with explicit fuel (one unit per row, so the
list's length always suffices). -/
def chunkRowsAux : ℕ → ℕ → List ℕ → List (List ℕ)
  | 0, _, _ => []
  | _, _, [] => []
  | fuel + 1, k, a :: t => (a :: t.take (k - 1)) :: chunkRowsAux fuel k (t.drop (k - 1))

/-- Rows of width `k` of a flat array, numpy `reshape((-1, k))` shape. -/
def chunkRows (k : ℕ) (l : List ℕ) : List (List ℕ) := chunkRowsAux l.length k l

/-- numpy `faces.reshape((-1, k))`: defined only when the flat length is a
multiple of `k` (numpy raises otherwise). -/
def npReshapeRows (l : List ℕ) (k : ℕ) : Option (List (List ℕ)) :=
  if k ≠ 0 ∧ k ∣ l.length then some (chunkRows k l) else none

/-- The failure modes of `save_mesh_obj`: the explicit
`ValueError('Mesh cell type not supported')`, a numpy reshape failure, and
`get_cell(0)` on a mesh with no cells. -/
inductive SaveError where
  | unsupportedCellType : SaveError
  | reshapeError : SaveError
  | emptyMesh : SaveError
deriving DecidableEq, Repr

/-- `save_mesh_obj(mesh, path)` up to the trimesh export call: inspects the
type of cell 0 only, picks the pyvista per-face record width (vertex-count
marker included), reshapes the flat faces array and strips the leading
marker from every row. `.ok` holds the face table handed to trimesh;
`.error` means the function raised before writing any output. -/
def save_mesh_obj (m : Mesh) : Except SaveError (List (List ℕ)) :=
  match m.cellTypes.head? with
  | none => .error .emptyMesh
  | some mesh_type =>
    if mesh_type = CellType.triangle then
      match npReshapeRows m.faces 4 with
      | none => .error .reshapeError
      | some rows => .ok (rows.map (List.drop 1))
    else if mesh_type = CellType.quad then
      match npReshapeRows m.faces 5 with
      | none => .error .reshapeError
      | some rows => .ok (rows.map (List.drop 1))
    else .error .unsupportedCellType

/-- A `pv.Plane` call as made by the wall helpers in `display.py`. -/
structure PlaneSpec where
  center : ℚ × ℚ × ℚ
  direction : ℚ × ℚ × ℚ
  i_size : ℚ
  j_size : ℚ
deriving DecidableEq, Repr

/-- `_get_x_aligned_rectangle` from `display.py`. -/
def _get_x_aligned_rectangle (x y_min y_max z_min z_max : ℚ) : PlaneSpec :=
  { center := (x, (y_min + y_max) / 2, (z_min + z_max) / 2)
    direction := (1, 0, 0)
    i_size := z_max - z_min
    j_size := y_max - y_min }

/-- `_get_y_aligned_rectangle` from `display.py`. -/
def _get_y_aligned_rectangle (y x_min x_max z_min z_max : ℚ) : PlaneSpec :=
  { center := ((x_min + x_max) / 2, y, (z_min + z_max) / 2)
    direction := (0, 1, 0)
    i_size := z_max - z_min
    j_size := x_max - x_min }

/-- `_get_z_aligned_rectangle` from `display.py`. -/
def _get_z_aligned_rectangle (z x_min x_max y_min y_max : ℚ) : PlaneSpec :=
  { center := ((x_min + x_max) / 2, (y_min + y_max) / 2, z)
    direction := (0, 0, 1)
    i_size := x_max - x_min
    j_size := y_max - y_min }

/-- `WindTunnelVisualizer._add_walls`: the wall panels actually added to
the plotter, in call order. -/
def _add_walls (x_min x_max y_min y_max z_min z_max : ℚ) : List PlaneSpec :=
  [_get_x_aligned_rectangle x_min y_min y_max z_min z_max,
   _get_x_aligned_rectangle x_max y_min y_max z_min z_max,
   _get_y_aligned_rectangle y_min x_min x_max z_min z_max,
   _get_z_aligned_rectangle z_min x_min x_max y_min y_max]

/-- Python strings, modelled as their character lists. -/
abbrev PyStr := List Char

/-- Python `str.lower()` on the ASCII coefficient names: shift the
upper-case letters down by 32. -/
def pyLower (s : PyStr) : PyStr :=
  s.map fun c => if 'A' ≤ c ∧ c ≤ 'Z' then Char.ofNat (c.toNat + 32) else c

/-- The column map of `plot_force_coefficients` (keys are the lowercased
coefficient names). -/
def coeffs_map (s : PyStr) : Option ℕ :=
  if s = "moment".data then some 1
  else if s = "drag".data then some 2
  else if s = "lift".data then some 3
  else if s = "front lift".data then some 4
  else if s = "rear lift".data then some 5
  else none

/-- Helper for `splitWS`: accumulate the current token (reversed). -/
def splitWSAux (s : PyStr) (acc : PyStr) : List PyStr :=
  match s with
  | [] => if acc = [] then [] else [acc.reverse]
  | c :: rest =>
    if c.isWhitespace then
      if acc = [] then splitWSAux rest [] else acc.reverse :: splitWSAux rest []
    else splitWSAux rest (c :: acc)

/-- Python `line.split()`: split on whitespace runs, no empty tokens. -/
def splitWS (s : PyStr) : List PyStr := splitWSAux s []

/-- Helper for `splitDot`: split at every `'.'`, keeping empty pieces. -/
def splitDotAux (s : PyStr) (acc : PyStr) : List PyStr :=
  match s with
  | [] => [acc.reverse]
  | c :: rest =>
    if c = '.' then acc.reverse :: splitDotAux rest []
    else splitDotAux rest (c :: acc)

/-- Split a token at its decimal points. -/
def splitDot (s : PyStr) : List PyStr := splitDotAux s []

/-- Value of a digit string, most significant first. -/
def digitsToNat (l : PyStr) : ℕ :=
  l.foldl (fun a c => 10 * a + (c.toNat - 48)) 0

/-- A nonempty all-digit string. -/
def allDigits (l : PyStr) : Bool := !l.isEmpty && l.all Char.isDigit

/-- A parsed decimal literal: sign, integer part, fractional part and the
fractional digit count. -/
structure DecimalLit where
  neg : Bool
  ip : ℕ
  fp : ℕ
  fpLen : ℕ
deriving DecidableEq, Repr

/-- Recognize the plain decimal literals occurring in coefficient files
(`digits` or `digits.digits`, optionally `-`-signed). -/
def parseLit (s : PyStr) : Option DecimalLit :=
  let core : Bool → PyStr → Option DecimalLit := fun sgn body =>
    match splitDot body with
    | [ipart] => if allDigits ipart then some ⟨sgn, digitsToNat ipart, 0, 0⟩ else none
    | [ipart, fpart] =>
      if allDigits ipart ∧ allDigits fpart then
        some ⟨sgn, digitsToNat ipart, digitsToNat fpart, fpart.length⟩
      else none
    | _ => none
  match s with
  | '-' :: body => core true body
  | _ => core false s

/-- The rational value of a parsed decimal literal. -/
def litVal (d : DecimalLit) : ℚ :=
  let mag : ℚ := (d.ip : ℚ) + (d.fp : ℚ) / (10 : ℚ) ^ d.fpLen
  if d.neg then -mag else mag

/-- Python `float(...)` on the decimal literals occurring in coefficient
files, read exactly into `ℚ`. `none` models a `ValueError`. -/
def parseDecimal (s : PyStr) : Option ℚ := (parseLit s).map litVal

/-- The failure modes of `plot_force_coefficients`: the explicit
`ValueError` for an unknown coefficient, and data-row failures
(missing column or non-numeric token). -/
inductive PlotError where
  | invalidCoefficient : PlotError
  | badRow : PlotError
deriving DecidableEq, Repr

/-- One loop iteration of the parser: `columns = line.split()`, then
`float(columns[0])` and `float(columns[idx])`. -/
def parseRow (idx : ℕ) (line : PyStr) : Except PlotError (ℚ × ℚ) :=
  match (splitWS line).get? 0 with
  | none => .error .badRow
  | some c0 =>
    match parseDecimal c0 with
    | none => .error .badRow
    | some t =>
      match (splitWS line).get? idx with
      | none => .error .badRow
      | some ci =>
        match parseDecimal ci with
        | none => .error .badRow
        | some v => .ok (t, v)

/-- The parsing loop over the data lines: one `parseRow` per line, the
first failure aborting the whole call (a Python exception propagates). -/
def parseRows (idx : ℕ) : List PyStr → Except PlotError (List (ℚ × ℚ))
  | [] => .ok []
  | l :: ls =>
    match parseRow idx l with
    | .error e => .error e
    | .ok p =>
      match parseRows idx ls with
      | .error e => .error e
      | .ok ps => .ok (p :: ps)

/-- The data-extraction core of `plot_force_coefficients`: lowercase the
coefficient name, look it up (raising before the file is touched when the
lookup fails), skip the first 9 lines, then parse every remaining line
into a (time, coefficient) pair. Returns the `time` and `coeff` lists the
function goes on to plot. -/
def plot_force_coefficients_data (lines : List PyStr) (coefficient : PyStr) :
    Except PlotError (List ℚ × List ℚ) :=
  match coeffs_map (pyLower coefficient) with
  | none => .error .invalidCoefficient
  | some idx =>
    match parseRows idx (lines.drop 9) with
    | .error e => .error e
    | .ok rows => .ok (rows.map Prod.fst, rows.map Prod.snd)

/-- pyvista `mesh.center`: the center of the bounding box. -/
def pvCenter (m : Mesh) : ℚ × ℚ × ℚ :=
  ((xMin m + xMax m) / 2, (yMin m + yMax m) / 2, (zMin m + zMax m) / 2)

/-- The centroid (mean) of the mesh's points, for comparison with
`pvCenter`. -/
def meshCentroid (m : Mesh) : ℚ × ℚ × ℚ :=
  ((meshXs m).sum / (m.points.length : ℚ),
   (meshYs m).sum / (m.points.length : ℚ),
   (meshZs m).sum / (m.points.length : ℚ))

/-- The arguments `compute_cutting_plane_area` passes to `mesh.slice`. -/
structure SliceCall where
  origin : ℚ × ℚ × ℚ
  normal : ℚ × ℚ × ℚ
deriving DecidableEq, Repr

/-- The plane `compute_cutting_plane_area` slices with:
`mesh.slice(origin=mesh.center, normal=face_normal)`. -/
def cutting_plane_slice_call (m : Mesh) (face_normal : ℚ × ℚ × ℚ) : SliceCall :=
  { origin := pvCenter m, normal := face_normal }

/-- `compute_cutting_plane_area(mesh, face_normal)`, parametrized by the
external pyvista primitives it composes (`slice`, `delaunay_2d`, `area`):
slice at the bounding-box center, Delaunay-fill the outline, return the
filled mesh's area. -/
def compute_cutting_plane_area (sliceOp : Mesh → SliceCall → Mesh)
    (delaunayFill : Mesh → Mesh) (pvArea : Mesh → ℚ)
    (m : Mesh) (face_normal : ℚ × ℚ × ℚ) : ℚ :=
  let mesh_slice := sliceOp m (cutting_plane_slice_call m face_normal)
  let filled_slice := delaunayFill mesh_slice
  pvArea filled_slice

/- ### Fold lemmas for bounds under monotone pointwise maps -/

theorem foldl_min_comm (f : ℚ → ℚ) (hf : Monotone f) :
    ∀ (l : List ℚ) (a : ℚ), List.foldl min (f a) (l.map f) = f (List.foldl min a l) := by
  intro l
  induction l with
  | nil => intro a; simp
  | cons x t ih =>
    intro a
    simp only [List.map_cons, List.foldl_cons]
    rw [← hf.map_min, ih]

theorem foldl_max_comm (f : ℚ → ℚ) (hf : Monotone f) :
    ∀ (l : List ℚ) (a : ℚ), List.foldl max (f a) (l.map f) = f (List.foldl max a l) := by
  intro l
  induction l with
  | nil => intro a; simp
  | cons x t ih =>
    intro a
    simp only [List.map_cons, List.foldl_cons]
    rw [← hf.map_max, ih]

theorem listMinD_map (f : ℚ → ℚ) (hf : Monotone f) (l : List ℚ) (hl : l ≠ []) :
    listMinD (l.map f) = f (listMinD l) := by
  cases l with
  | nil => exact absurd rfl hl
  | cons a t => simp only [listMinD, List.map_cons]; exact foldl_min_comm f hf t a

theorem listMaxD_map (f : ℚ → ℚ) (hf : Monotone f) (l : List ℚ) (hl : l ≠ []) :
    listMaxD (l.map f) = f (listMaxD l) := by
  cases l with
  | nil => exact absurd rfl hl
  | cons a t => simp only [listMaxD, List.map_cons]; exact foldl_max_comm f hf t a

theorem meshXs_scale (m : Mesh) (c : ℚ) :
    meshXs (pv_scale m c false).1 = (meshXs m).map (fun x => c * x) := by
  simp [meshXs, pv_scale, List.map_map]

theorem meshYs_scale (m : Mesh) (c : ℚ) :
    meshYs (pv_scale m c false).1 = (meshYs m).map (fun x => c * x) := by
  simp [meshYs, pv_scale, List.map_map]

theorem meshZs_scale (m : Mesh) (c : ℚ) :
    meshZs (pv_scale m c false).1 = (meshZs m).map (fun x => c * x) := by
  simp [meshZs, pv_scale, List.map_map]

theorem xDimension_scale (m : Mesh) (c : ℚ) (hc : 0 ≤ c) (hm : m.points ≠ []) :
    xDimension (pv_scale m c false).1 = c * xDimension m := by
  have hne : meshXs m ≠ [] := by
    simpa [meshXs] using hm
  have hmono : Monotone (fun x : ℚ => c * x) := fun a b h => by
    exact mul_le_mul_of_nonneg_left h hc
  unfold xDimension xMin xMax
  rw [meshXs_scale, listMinD_map _ hmono _ hne, listMaxD_map _ hmono _ hne]
  ring

theorem yDimension_scale (m : Mesh) (c : ℚ) (hc : 0 ≤ c) (hm : m.points ≠ []) :
    yDimension (pv_scale m c false).1 = c * yDimension m := by
  have hne : meshYs m ≠ [] := by
    simpa [meshYs] using hm
  have hmono : Monotone (fun x : ℚ => c * x) := fun a b h => by
    exact mul_le_mul_of_nonneg_left h hc
  unfold yDimension yMin yMax
  rw [meshYs_scale, listMinD_map _ hmono _ hne, listMaxD_map _ hmono _ hne]
  ring

theorem zDimension_scale (m : Mesh) (c : ℚ) (hc : 0 ≤ c) (hm : m.points ≠ []) :
    zDimension (pv_scale m c false).1 = c * zDimension m := by
  have hne : meshZs m ≠ [] := by
    simpa [meshZs] using hm
  have hmono : Monotone (fun x : ℚ => c * x) := fun a b h => by
    exact mul_le_mul_of_nonneg_left h hc
  unfold zDimension zMin zMax
  rw [meshZs_scale, listMinD_map _ hmono _ hne, listMaxD_map _ hmono _ hne]
  ring

end WindTunnel

namespace WindTunnel

theorem meshXs_translate (m : Mesh) (v : ℚ × ℚ × ℚ) :
    meshXs (pv_translate m v false).1 = (meshXs m).map (fun x => x + v.1) := by
  simp [meshXs, pv_translate, List.map_map]

theorem meshYs_translate (m : Mesh) (v : ℚ × ℚ × ℚ) :
    meshYs (pv_translate m v false).1 = (meshYs m).map (fun x => x + v.2.1) := by
  simp [meshYs, pv_translate, List.map_map]

theorem meshZs_translate (m : Mesh) (v : ℚ × ℚ × ℚ) :
    meshZs (pv_translate m v false).1 = (meshZs m).map (fun x => x + v.2.2) := by
  simp [meshZs, pv_translate, List.map_map]

theorem add_monotone (c : ℚ) : Monotone (fun x : ℚ => x + c) :=
  fun _ _ h => add_le_add_right h c

theorem xMin_translate (m : Mesh) (v : ℚ × ℚ × ℚ) (hm : m.points ≠ []) :
    xMin (pv_translate m v false).1 = xMin m + v.1 := by
  have hne : meshXs m ≠ [] := by simpa [meshXs] using hm
  unfold xMin
  rw [meshXs_translate, listMinD_map _ (add_monotone v.1) _ hne]

theorem xMax_translate (m : Mesh) (v : ℚ × ℚ × ℚ) (hm : m.points ≠ []) :
    xMax (pv_translate m v false).1 = xMax m + v.1 := by
  have hne : meshXs m ≠ [] := by simpa [meshXs] using hm
  unfold xMax
  rw [meshXs_translate, listMaxD_map _ (add_monotone v.1) _ hne]

theorem yMin_translate (m : Mesh) (v : ℚ × ℚ × ℚ) (hm : m.points ≠ []) :
    yMin (pv_translate m v false).1 = yMin m + v.2.1 := by
  have hne : meshYs m ≠ [] := by simpa [meshYs] using hm
  unfold yMin
  rw [meshYs_translate, listMinD_map _ (add_monotone v.2.1) _ hne]

theorem yMax_translate (m : Mesh) (v : ℚ × ℚ × ℚ) (hm : m.points ≠ []) :
    yMax (pv_translate m v false).1 = yMax m + v.2.1 := by
  have hne : meshYs m ≠ [] := by simpa [meshYs] using hm
  unfold yMax
  rw [meshYs_translate, listMaxD_map _ (add_monotone v.2.1) _ hne]

theorem zMin_translate (m : Mesh) (v : ℚ × ℚ × ℚ) (hm : m.points ≠ []) :
    zMin (pv_translate m v false).1 = zMin m + v.2.2 := by
  have hne : meshZs m ≠ [] := by simpa [meshZs] using hm
  unfold zMin
  rw [meshZs_translate, listMinD_map _ (add_monotone v.2.2) _ hne]

theorem translate_points_ne (m : Mesh) (v : ℚ × ℚ × ℚ) (hm : m.points ≠ []) :
    (pv_translate m v false).1.points ≠ [] := by
  simp only [pv_translate]
  simpa using hm

theorem scale_points_ne (m : Mesh) (c : ℚ) (hm : m.points ≠ []) :
    (pv_scale m c false).1.points ≠ [] := by
  simp only [pv_scale]
  simpa using hm


/-- C1: for every mesh with positive bounding-box extents and every
envelope with positive extents, `_get_scaling_factor` equals the minimum
of the three per-axis ratios, and uniformly scaling the mesh by it
(`normalize_mesh`) makes at least one axis extent exactly equal its
target and no axis extent exceed its target. -/
theorem scaling_factor_fits (m : Mesh) (L : ℚ × ℚ × ℚ)
    (hm : m.points ≠ [])
    (hdx : 0 < xDimension m) (hdy : 0 < yDimension m) (hdz : 0 < zDimension m)
    (hLx : 0 < L.1) (hLy : 0 < L.2.1) (hLz : 0 < L.2.2) :
    _get_scaling_factor m L =
      min (L.1 / xDimension m) (min (L.2.1 / yDimension m) (L.2.2 / zDimension m)) ∧
    (xDimension (normalize_mesh m L).1 = L.1 ∨
     yDimension (normalize_mesh m L).1 = L.2.1 ∨
     zDimension (normalize_mesh m L).1 = L.2.2) ∧
    xDimension (normalize_mesh m L).1 ≤ L.1 ∧
    yDimension (normalize_mesh m L).1 ≤ L.2.1 ∧
    zDimension (normalize_mesh m L).1 ≤ L.2.2 := by
  set f := _get_scaling_factor m L with hf
  have hfdef : f = min (L.1 / xDimension m)
      (min (L.2.1 / yDimension m) (L.2.2 / zDimension m)) := rfl
  have hfx : f ≤ L.1 / xDimension m := hfdef ▸ min_le_left _ _
  have hfy : f ≤ L.2.1 / yDimension m :=
    le_trans (hfdef ▸ min_le_right _ _) (min_le_left _ _)
  have hfz : f ≤ L.2.2 / zDimension m :=
    le_trans (hfdef ▸ min_le_right _ _) (min_le_right _ _)
  have hfpos : 0 < f := by
    rw [hfdef]
    exact lt_min (div_pos hLx hdx) (lt_min (div_pos hLy hdy) (div_pos hLz hdz))
  have hnm : (normalize_mesh m L).1 = (pv_scale m f false).1 := rfl
  have hx : xDimension (normalize_mesh m L).1 = f * xDimension m := by
    rw [hnm]; exact xDimension_scale m f hfpos.le hm
  have hy : yDimension (normalize_mesh m L).1 = f * yDimension m := by
    rw [hnm]; exact yDimension_scale m f hfpos.le hm
  have hz : zDimension (normalize_mesh m L).1 = f * zDimension m := by
    rw [hnm]; exact zDimension_scale m f hfpos.le hm
  refine ⟨hfdef, ?_, ?_, ?_, ?_⟩
  · rcases min_choice (L.1 / xDimension m)
      (min (L.2.1 / yDimension m) (L.2.2 / zDimension m)) with h | h
    · left
      rw [hx, ← hfdef] at *
      rw [hfdef, h, div_mul_cancel₀ _ (ne_of_gt hdx)]
    · rcases min_choice (L.2.1 / yDimension m) (L.2.2 / zDimension m) with h2 | h2
      · right; left
        rw [hy, hfdef, h, h2, div_mul_cancel₀ _ (ne_of_gt hdy)]
      · right; right
        rw [hz, hfdef, h, h2, div_mul_cancel₀ _ (ne_of_gt hdz)]
  · rw [hx]
    exact (le_div_iff₀ hdx).mp hfx
  · rw [hy]
    exact (le_div_iff₀ hdy).mp hfy
  · rw [hz]
    exact (le_div_iff₀ hdz).mp hfz

/-- Witness for C1 at the two-point mesh {(0,0,0), (1,2,4)} with envelope
(10, 2, 1): the factor is 1/4 and the z extent hits its target exactly. -/
theorem scaling_factor_fits_witness :
    _get_scaling_factor ⟨[(0, 0, 0), (1, 2, 4)], [], []⟩ (10, 2, 1) =
      min ((10 : ℚ) / xDimension ⟨[(0, 0, 0), (1, 2, 4)], [], []⟩)
        (min ((2 : ℚ) / yDimension ⟨[(0, 0, 0), (1, 2, 4)], [], []⟩)
          ((1 : ℚ) / zDimension ⟨[(0, 0, 0), (1, 2, 4)], [], []⟩)) ∧
    (xDimension (normalize_mesh ⟨[(0, 0, 0), (1, 2, 4)], [], []⟩ (10, 2, 1)).1 = 10 ∨
     yDimension (normalize_mesh ⟨[(0, 0, 0), (1, 2, 4)], [], []⟩ (10, 2, 1)).1 = 2 ∨
     zDimension (normalize_mesh ⟨[(0, 0, 0), (1, 2, 4)], [], []⟩ (10, 2, 1)).1 = 1) ∧
    xDimension (normalize_mesh ⟨[(0, 0, 0), (1, 2, 4)], [], []⟩ (10, 2, 1)).1 ≤ 10 ∧
    yDimension (normalize_mesh ⟨[(0, 0, 0), (1, 2, 4)], [], []⟩ (10, 2, 1)).1 ≤ 2 ∧
    zDimension (normalize_mesh ⟨[(0, 0, 0), (1, 2, 4)], [], []⟩ (10, 2, 1)).1 ≤ 1 :=
  scaling_factor_fits ⟨[(0, 0, 0), (1, 2, 4)], [], []⟩ (10, 2, 1)
    (by decide)
    (by norm_num [xDimension, xMax, xMin, meshXs, listMinD, listMaxD])
    (by norm_num [yDimension, yMax, yMin, meshYs, listMinD, listMaxD])
    (by norm_num [zDimension, zMax, zMin, meshZs, listMinD, listMaxD])
    (by norm_num) (by norm_num) (by norm_num)

/-- C4: `move_mesh_to_origin` returns the displacement
(-x_mid, -y_mid, -z_min) built from the bounding box, and applying it to
its own result yields the zero displacement. -/
theorem move_mesh_to_origin_idem (m : Mesh) (hm : m.points ≠ []) :
    (move_mesh_to_origin m).2 =
      (-((xMin m + xMax m) / 2), -((yMin m + yMax m) / 2), -(zMin m)) ∧
    (move_mesh_to_origin (move_mesh_to_origin m).1).2 = (0, 0, 0) := by
  refine ⟨rfl, ?_⟩
  set v : ℚ × ℚ × ℚ :=
    (-((xMin m + xMax m) / 2), -((yMin m + yMax m) / 2), -(zMin m)) with hv
  have h1 : (move_mesh_to_origin m).1 = (pv_translate m v false).1 := rfl
  have hx1 : xMin (move_mesh_to_origin m).1 = xMin m + v.1 := by
    rw [h1]; exact xMin_translate m v hm
  have hx2 : xMax (move_mesh_to_origin m).1 = xMax m + v.1 := by
    rw [h1]; exact xMax_translate m v hm
  have hy1 : yMin (move_mesh_to_origin m).1 = yMin m + v.2.1 := by
    rw [h1]; exact yMin_translate m v hm
  have hy2 : yMax (move_mesh_to_origin m).1 = yMax m + v.2.1 := by
    rw [h1]; exact yMax_translate m v hm
  have hz1 : zMin (move_mesh_to_origin m).1 = zMin m + v.2.2 := by
    rw [h1]; exact zMin_translate m v hm
  have hrepr : (move_mesh_to_origin (move_mesh_to_origin m).1).2 =
      (-((xMin (move_mesh_to_origin m).1 + xMax (move_mesh_to_origin m).1) / 2),
       -((yMin (move_mesh_to_origin m).1 + yMax (move_mesh_to_origin m).1) / 2),
       -(zMin (move_mesh_to_origin m).1)) := rfl
  rw [hrepr, hx1, hx2, hy1, hy2, hz1]
  simp only [hv, Prod.mk.injEq]
  refine ⟨by ring, by ring, by ring⟩

/-- Witness for C4 at the two-point mesh {(0,0,0), (1,2,4)}. -/
theorem move_mesh_to_origin_idem_witness :
    (move_mesh_to_origin ⟨[(0, 0, 0), (1, 2, 4)], [], []⟩).2 =
      (-((xMin ⟨[(0, 0, 0), (1, 2, 4)], [], []⟩ +
          xMax ⟨[(0, 0, 0), (1, 2, 4)], [], []⟩) / 2),
       -((yMin ⟨[(0, 0, 0), (1, 2, 4)], [], []⟩ +
          yMax ⟨[(0, 0, 0), (1, 2, 4)], [], []⟩) / 2),
       -(zMin ⟨[(0, 0, 0), (1, 2, 4)], [], []⟩)) ∧
    (move_mesh_to_origin
      (move_mesh_to_origin ⟨[(0, 0, 0), (1, 2, 4)], [], []⟩).1).2 = (0, 0, 0) :=
  move_mesh_to_origin_idem ⟨[(0, 0, 0), (1, 2, 4)], [], []⟩ (by decide)

/-- C9: `normalize_mesh` and `move_mesh_to_origin` call the pyvista
transforms with `inplace` left at its default `False`, so the mesh object
passed in — its points and hence its bounding box — is unchanged after
the call; each returns a fresh mesh value. -/
theorem transforms_do_not_mutate (m : Mesh) (dims : ℚ × ℚ × ℚ) :
    (normalize_mesh_full m dims).2 = m ∧
    (normalize_mesh_full m dims).2.points = m.points ∧
    (move_mesh_to_origin_full m).2 = m ∧
    (move_mesh_to_origin_full m).2.points = m.points :=
  ⟨rfl, rfl, rfl, rfl⟩

/-- C3 counterexample: a mesh of 100 cells is at or below the decimation
threshold (5000), yet `compute_projected_area` still triangulates it (the
guard `decimation_factor < 1` holds for every positive cell count) and
still calls `decimate` — with factor 1 - 5000/100 = -49. The claim that
such meshes are passed to projection untouched is false. -/
theorem projected_area_decimation_counterexample :
    (100 : ℕ) ≤ NUM_DECIMATION_CELLS ∧
    (projected_area_decimation 100).triangulateInvoked = true ∧
    (projected_area_decimation 100).decimateFactor = some (-49) := by
  refine ⟨by norm_num [NUM_DECIMATION_CELLS], ?_, ?_⟩
  · show decide (decimation_factor 100 < 1) = true
    rw [decide_eq_true_eq]
    norm_num [decimation_factor, NUM_DECIMATION_CELLS]
  · show some (decimation_factor 100) = some (-49)
    norm_num [decimation_factor, NUM_DECIMATION_CELLS]

/-- C3 amended: for every positive cell count, `compute_projected_area`
triangulates the mesh (its guard `decimation_factor < 1` always holds)
and calls `decimate` unconditionally with factor
`1 - NUM_DECIMATION_CELLS / n_cells`; that factor lies in (0,1) exactly
when the cell count exceeds the threshold. -/
theorem projected_area_decimation_amended (n : ℕ) (hn : 0 < n) :
    (projected_area_decimation n).triangulateInvoked = true ∧
    (projected_area_decimation n).decimateFactor = some (decimation_factor n) ∧
    decimation_factor n < 1 ∧
    (0 < decimation_factor n ↔ NUM_DECIMATION_CELLS < n) := by
  have hq : (0 : ℚ) < (n : ℚ) := by exact_mod_cast hn
  have hlt : decimation_factor n < 1 := by
    unfold decimation_factor
    have hd : 0 < (NUM_DECIMATION_CELLS : ℚ) / (n : ℚ) :=
      div_pos (by norm_num [NUM_DECIMATION_CELLS]) hq
    linarith
  refine ⟨?_, rfl, hlt, ?_⟩
  · show decide (decimation_factor n < 1) = true
    exact decide_eq_true hlt
  · unfold decimation_factor
    rw [sub_pos, div_lt_one hq]
    exact Nat.cast_lt

/-- Witness for the amended C3 at 6000 cells (above the threshold). -/
theorem projected_area_decimation_amended_witness :
    (projected_area_decimation 6000).triangulateInvoked = true ∧
    (projected_area_decimation 6000).decimateFactor = some (decimation_factor 6000) ∧
    decimation_factor 6000 < 1 ∧
    (0 < decimation_factor 6000 ↔ NUM_DECIMATION_CELLS < 6000) :=
  projected_area_decimation_amended 6000 (by decide)

/-- C5 counterexample: `save_mesh_obj` inspects only cell 0. A mesh whose
first cell is a triangle but whose second cell is a 7-vertex polygon is
exported without any unsupported-cell-type error (producing garbage face
rows), so the claim that ANY unsupported cell raises is false. -/
theorem save_mesh_obj_counterexample :
    CellType.other 7 ∈
      (Mesh.mk [] [3, 0, 1, 2, 7, 0, 1, 2, 3, 4, 5, 6]
        [CellType.triangle, CellType.other 7]).cellTypes ∧
    CellType.other 7 ≠ CellType.triangle ∧
    CellType.other 7 ≠ CellType.quad ∧
    save_mesh_obj (Mesh.mk [] [3, 0, 1, 2, 7, 0, 1, 2, 3, 4, 5, 6]
        [CellType.triangle, CellType.other 7]) =
      .ok [[0, 1, 2], [0, 1, 2], [4, 5, 6]] :=
  ⟨by decide, by decide, by decide, rfl⟩

/-- C5 amended: `save_mesh_obj` raises the unsupported-cell-type error
exactly when the FIRST cell's type is neither triangle nor quad (no
output is produced in that case); when the first cell is a triangle
(resp. quad) and the flat face array reshapes evenly, the per-face
records are exported with the leading vertex-count marker stripped. -/
theorem save_mesh_obj_first_cell (m : Mesh) :
    (save_mesh_obj m = .error .unsupportedCellType ↔
      ∃ t, m.cellTypes.head? = some t ∧
        t ≠ CellType.triangle ∧ t ≠ CellType.quad) ∧
    (m.cellTypes.head? = some CellType.triangle → 4 ∣ m.faces.length →
      save_mesh_obj m = .ok ((chunkRows 4 m.faces).map (List.drop 1))) ∧
    (m.cellTypes.head? = some CellType.quad → 5 ∣ m.faces.length →
      save_mesh_obj m = .ok ((chunkRows 5 m.faces).map (List.drop 1))) := by
  rcases hh : m.cellTypes.head? with _ | t
  · refine ⟨?_, ?_, ?_⟩
    · simp [save_mesh_obj, hh]
    · intro h; exact Option.noConfusion h
    · intro h; exact Option.noConfusion h
  · cases t with
    | triangle =>
      refine ⟨?_, ?_, ?_⟩
      · rcases hr : npReshapeRows m.faces 4 with _ | rows <;>
          simp [save_mesh_obj, hh, hr]
      · intro _ hdvd
        simp [save_mesh_obj, hh, npReshapeRows, hdvd]
      · intro h; simp at h
    | quad =>
      refine ⟨?_, ?_, ?_⟩
      · rcases hr : npReshapeRows m.faces 5 with _ | rows <;>
          simp [save_mesh_obj, hh, hr]
      · intro h; simp at h
      · intro _ hdvd
        simp [save_mesh_obj, hh, npReshapeRows, hdvd]
    | other n =>
      refine ⟨?_, ?_, ?_⟩
      · simp [save_mesh_obj, hh]
      · intro h; simp at h
      · intro h; simp at h

/-- Witness for the amended C5 on a single-triangle mesh. -/
theorem save_mesh_obj_first_cell_witness :
    save_mesh_obj (Mesh.mk [] [3, 0, 1, 2] [CellType.triangle]) =
      .ok ((chunkRows 4 (Mesh.mk [] [3, 0, 1, 2] [CellType.triangle]).faces).map
        (List.drop 1)) :=
  (save_mesh_obj_first_cell (Mesh.mk [] [3, 0, 1, 2] [CellType.triangle])).2.1
    (by decide) (by decide)

/-- C6 counterexample: on the unit box, `_add_walls` adds four wall
panels, not six — there is no panel for the y_max face and none for the
z_max face (only one y-aligned and one z-aligned direction appear). -/
theorem add_walls_counterexample :
    (_add_walls 0 1 0 1 0 1).length = 4 ∧
    (_add_walls 0 1 0 1 0 1).map PlaneSpec.direction =
      [(1, 0, 0), (1, 0, 0), (0, 1, 0), (0, 0, 1)] :=
  ⟨rfl, rfl⟩

/-- C6 amended: for every tunnel bounding box, `_add_walls` constructs
exactly four axis-aligned rectangular panels — the two x faces, the y_min
face and the z_min face — each centered on the midpoints of its two
in-plane dimensions at the face's offset along the perpendicular axis,
with sizes equal to the in-plane extents; the y_max and z_max faces get
no panel. -/
theorem add_walls_amended (x_min x_max y_min y_max z_min z_max : ℚ) :
    (_add_walls x_min x_max y_min y_max z_min z_max).length = 4 ∧
    _add_walls x_min x_max y_min y_max z_min z_max =
      [_get_x_aligned_rectangle x_min y_min y_max z_min z_max,
       _get_x_aligned_rectangle x_max y_min y_max z_min z_max,
       _get_y_aligned_rectangle y_min x_min x_max z_min z_max,
       _get_z_aligned_rectangle z_min x_min x_max y_min y_max] ∧
    (_get_x_aligned_rectangle x_min y_min y_max z_min z_max).center =
      (x_min, (y_min + y_max) / 2, (z_min + z_max) / 2) ∧
    (_get_x_aligned_rectangle x_min y_min y_max z_min z_max).i_size = z_max - z_min ∧
    (_get_x_aligned_rectangle x_min y_min y_max z_min z_max).j_size = y_max - y_min ∧
    (_get_y_aligned_rectangle y_min x_min x_max z_min z_max).center =
      ((x_min + x_max) / 2, y_min, (z_min + z_max) / 2) ∧
    (_get_z_aligned_rectangle z_min x_min x_max y_min y_max).center =
      ((x_min + x_max) / 2, (y_min + y_max) / 2, z_min) ∧
    (_add_walls x_min x_max y_min y_max z_min z_max).map PlaneSpec.direction =
      [(1, 0, 0), (1, 0, 0), (0, 1, 0), (0, 0, 1)] :=
  ⟨rfl, rfl, rfl, rfl, rfl, rfl, rfl, rfl⟩

theorem parseRow_error_badRow (idx : ℕ) (line : PyStr) (e : PlotError)
    (h : parseRow idx line = .error e) : e = .badRow := by
  unfold parseRow at h
  rcases h0 : (splitWS line).get? 0 with _ | c0 <;> simp only [h0] at h
  · exact (Except.error.inj h).symm
  · rcases h1 : parseDecimal c0 with _ | t <;> simp only [h1] at h
    · exact (Except.error.inj h).symm
    · rcases h2 : (splitWS line).get? idx with _ | ci <;> simp only [h2] at h
      · exact (Except.error.inj h).symm
      · rcases h3 : parseDecimal ci with _ | v <;> simp only [h3] at h
        · exact (Except.error.inj h).symm
        · exact Except.noConfusion h

theorem parseRows_error_badRow (idx : ℕ) :
    ∀ (ls : List PyStr) (e : PlotError),
      parseRows idx ls = .error e → e = .badRow := by
  intro ls
  induction ls with
  | nil => intro e h; exact Except.noConfusion h
  | cons a t ih =>
    intro e h
    unfold parseRows at h
    rcases hp : parseRow idx a with e' | p <;> simp only [hp] at h
    · rw [← Except.error.inj h]
      exact parseRow_error_badRow idx a e' hp
    · rcases hr : parseRows idx t with e' | ps <;> simp only [hr] at h
      · rw [← Except.error.inj h]
        exact ih e' hr
      · exact Except.noConfusion h

/-- C10: the coefficient lookup of `plot_force_coefficients` is
case-insensitive — the name is lowercased before matching, so the parse
result depends only on the lowercased name and every casing of the five
known names selects the same column — and the invalid-coefficient
`ValueError` is raised exactly when the lowercased name is not a key of
the map, independently of the file's contents (it is raised before the
file is opened). -/
theorem coefficient_lookup_case_insensitive :
    (∀ c₁ c₂ : PyStr, pyLower c₁ = pyLower c₂ →
      ∀ lines, plot_force_coefficients_data lines c₁ =
        plot_force_coefficients_data lines c₂) ∧
    coeffs_map (pyLower "Drag".data) = some 2 ∧
    coeffs_map (pyLower "DRAG".data) = some 2 ∧
    coeffs_map (pyLower "drag".data) = some 2 ∧
    (∀ (c : PyStr) (lines lines' : List PyStr),
      coeffs_map (pyLower c) = none →
        plot_force_coefficients_data lines c = .error .invalidCoefficient ∧
        plot_force_coefficients_data lines c =
          plot_force_coefficients_data lines' c) ∧
    (∀ (c : PyStr) (lines : List PyStr), coeffs_map (pyLower c) ≠ none →
      plot_force_coefficients_data lines c ≠ .error .invalidCoefficient) := by
  refine ⟨?_, by decide, by decide, by decide, ?_, ?_⟩
  · intro c₁ c₂ h lines
    unfold plot_force_coefficients_data
    rw [h]
  · intro c lines lines' h
    constructor
    · unfold plot_force_coefficients_data
      rw [h]
    · unfold plot_force_coefficients_data
      rw [h]
  · intro c lines h
    rcases hc : coeffs_map (pyLower c) with _ | idx
    · exact absurd hc h
    · unfold plot_force_coefficients_data
      rcases hr : parseRows idx (lines.drop 9) with e | rows
      · have hb := parseRows_error_badRow idx _ e hr
        subst hb
        simp only [hc, hr]
        simp
      · simp only [hc, hr]
        simp

/-- Witness for C10: the unknown name "Torque" raises the
invalid-coefficient error whatever the file holds. -/
theorem coefficient_lookup_case_insensitive_witness :
    plot_force_coefficients_data [] "Torque".data = .error .invalidCoefficient ∧
    plot_force_coefficients_data [] "Torque".data =
      plot_force_coefficients_data ["anything".data] "Torque".data :=
  coefficient_lookup_case_insensitive.2.2.2.2.1 "Torque".data [] ["anything".data]
    (by decide)

/-- C7: the force-coefficient parser skips exactly the first 9 lines
whatever they hold (two files with the same data lines but different
9-line headers parse identically), selects columns by the fixed map
(moment 1, drag 2, lift 3, front lift 4, rear lift 5 and time from
column 0), and on the single data row "0.1 0.0 1.2 0.5 0.3 0.2" with
coefficient "Drag" yields time = [0.1] and coeff = [1.2]. -/
theorem force_coefficients_parsing (hdr hdr2 rest : List PyStr) (c : PyStr)
    (h9 : hdr.length = 9) (h9' : hdr2.length = 9) :
    plot_force_coefficients_data (hdr ++ rest) c =
      plot_force_coefficients_data (hdr2 ++ rest) c ∧
    coeffs_map "moment".data = some 1 ∧
    coeffs_map "drag".data = some 2 ∧
    coeffs_map "lift".data = some 3 ∧
    coeffs_map "front lift".data = some 4 ∧
    coeffs_map "rear lift".data = some 5 ∧
    plot_force_coefficients_data (hdr ++ ["0.1 0.0 1.2 0.5 0.3 0.2".data])
      "Drag".data = .ok ([1 / 10], [6 / 5]) := by
  have hd1 : (hdr ++ rest).drop 9 = rest := by
    rw [← h9]; exact List.drop_left hdr rest
  have hd2 : (hdr2 ++ rest).drop 9 = rest := by
    rw [← h9']; exact List.drop_left hdr2 rest
  have hd3 : (hdr ++ ["0.1 0.0 1.2 0.5 0.3 0.2".data]).drop 9 =
      ["0.1 0.0 1.2 0.5 0.3 0.2".data] := by
    rw [← h9]; exact List.drop_left hdr _
  refine ⟨?_, by decide, by decide, by decide, by decide, by decide, ?_⟩
  · unfold plot_force_coefficients_data
    simp only [hd1, hd2]
  · have hcoeff : coeffs_map (pyLower "Drag".data) = some 2 := by decide
    have hv0 : litVal ⟨false, 0, 1, 1⟩ = 1 / 10 := by norm_num [litVal]
    have hv2 : litVal ⟨false, 1, 2, 1⟩ = 6 / 5 := by norm_num [litVal]
    have hrows : parseRows 2 ["0.1 0.0 1.2 0.5 0.3 0.2".data] =
        .ok [(litVal ⟨false, 0, 1, 1⟩, litVal ⟨false, 1, 2, 1⟩)] := rfl
    rw [hv0, hv2] at hrows
    unfold plot_force_coefficients_data
    simp only [hd3, hcoeff, hrows, List.map_cons, List.map_nil]

/-- Witness for C7 with a 9-line header of empty lines. -/
theorem force_coefficients_parsing_witness :
    plot_force_coefficients_data
      (List.replicate 9 [] ++ ["0.1 0.0 1.2 0.5 0.3 0.2".data])
      "Drag".data = .ok ([1 / 10], [6 / 5]) :=
  (force_coefficients_parsing (List.replicate 9 []) (List.replicate 9 []) []
    "Drag".data (by decide) (by decide)).2.2.2.2.2.2

theorem list_biUnion_cons {α β : Type*} (a : α) (l : List α) (f : α → Set β) :
    (⋃ x ∈ (a :: l), f x) = f a ∪ ⋃ x ∈ l, f x := by
  ext y
  simp only [Set.mem_iUnion, Set.mem_union, List.mem_cons, exists_prop]
  constructor
  · rintro ⟨x, hx | hx, hy⟩
    · exact Or.inl (hx ▸ hy)
    · exact Or.inr ⟨x, hx, hy⟩
  · rintro (hy | ⟨x, hx, hy⟩)
    · exact ⟨a, Or.inl rfl, hy⟩
    · exact ⟨x, Or.inr hx, hy⟩

theorem polygonUnionArea_le_sum (ts : List ((ℝ × ℝ) × (ℝ × ℝ) × (ℝ × ℝ))) :
    polygonUnionArea ts ≤ polygonSumArea ts := by
  induction ts with
  | nil => simp [polygonUnionArea, polygonSumArea]
  | cons h t ih =>
    unfold polygonUnionArea polygonSumArea at ih ⊢
    rw [list_biUnion_cons, List.map_cons, List.sum_cons]
    exact le_trans (MeasureTheory.measure_union_le _ _) (add_le_add_left ih _)

theorem box_subset_triangle :
    (Set.Ioo (0:ℝ) (1/4)) ×ˢ (Set.Ioo (0:ℝ) (1/4)) ⊆
      trianglePolygon (0, 0) (1, 0) (0, 1) := by
  rintro ⟨x, y⟩ ⟨hx, hy⟩
  unfold trianglePolygon
  have hw0 : ∀ i ∈ (Finset.univ : Finset (Fin 3)), 0 ≤ ![1 - x - y, x, y] i := by
    intro i _
    fin_cases i <;> simp <;> [skip; exact hx.1.le; exact hy.1.le]
    · nlinarith [hx.1, hx.2, hy.1, hy.2]
  have hws : 0 < ∑ i ∈ (Finset.univ : Finset (Fin 3)), ![1 - x - y, x, y] i := by
    rw [Fin.sum_univ_three]
    simp only [Matrix.cons_val_zero, Matrix.cons_val_one, Matrix.head_cons,
      Matrix.cons_val_two, Matrix.tail_cons]
    linarith
  have hz : ∀ i ∈ (Finset.univ : Finset (Fin 3)),
      ![((0:ℝ), (0:ℝ)), (1, 0), (0, 1)] i ∈
        ({((0:ℝ), (0:ℝ)), (1, 0), (0, 1)} : Set (ℝ × ℝ)) := by
    intro i _
    fin_cases i <;> simp
  have hmem := Finset.centerMass_mem_convexHull (Finset.univ : Finset (Fin 3))
    hw0 hws hz
  have hcm : (Finset.univ : Finset (Fin 3)).centerMass (![1 - x - y, x, y])
      (![((0:ℝ), (0:ℝ)), (1, 0), (0, 1)]) = (x, y) := by
    rw [Finset.centerMass]
    rw [Fin.sum_univ_three, Fin.sum_univ_three]
    simp [Prod.smul_mk, smul_eq_mul]
    constructor <;> ring
  rw [hcm] at hmem
  exact hmem

theorem triangle_volume_pos :
    0 < MeasureTheory.volume (trianglePolygon (0, 0) (1, 0) (0, 1)) := by
  have hopen : IsOpen ((Set.Ioo (0:ℝ) (1/4)) ×ˢ (Set.Ioo (0:ℝ) (1/4))) :=
    isOpen_Ioo.prod isOpen_Ioo
  have hne : ((Set.Ioo (0:ℝ) (1/4)) ×ˢ (Set.Ioo (0:ℝ) (1/4))).Nonempty :=
    ⟨(1/8, 1/8), by norm_num⟩
  exact lt_of_lt_of_le (hopen.measure_pos MeasureTheory.volume hne)
    (MeasureTheory.measure_mono box_subset_triangle)

theorem triangle_volume_ne_top :
    MeasureTheory.volume (trianglePolygon (0, 0) (1, 0) (0, 1)) ≠ ⊤ := by
  have hfin : ({((0:ℝ), (0:ℝ)), (1, 0), (0, 1)} : Set (ℝ × ℝ)).Finite :=
    (Set.finite_singleton _).insert _ |>.insert _
  exact (hfin.isCompact_convexHull.measure_lt_top).ne

/-- C2: for every triangle list and every valid axis,
`compute_projected_area` returns the area of the UNION of the projected
triangle polygons, hence is at most the naive sum of their individual
areas; and on a self-occluding silhouette whose projected triangles
overlap (two stacked plates, morally the front/back faces of a non-convex
prism) it is strictly less than that sum. -/
theorem projected_area_is_union_not_sum :
    (∀ (tris : List RTri3) (a : Axis),
      compute_projected_area tris a = polygonUnionArea (tris.map (projTri a)) ∧
      compute_projected_area tris a ≤ naiveProjectedSum tris a) ∧
    compute_projected_area overlapTris Axis.Z <
      naiveProjectedSum overlapTris Axis.Z := by
  constructor
  · intro tris a
    exact ⟨rfl, polygonUnionArea_le_sum _⟩
  · have hmap : overlapTris.map (projTri Axis.Z) =
        [((0, 0), (1, 0), (0, 1)), ((0, 0), (1, 0), (0, 1))] := rfl
    have hU : compute_projected_area overlapTris Axis.Z =
        MeasureTheory.volume (trianglePolygon (0, 0) (1, 0) (0, 1)) := by
      show polygonUnionArea (overlapTris.map (projTri Axis.Z)) = _
      rw [hmap]
      unfold polygonUnionArea
      rw [list_biUnion_cons, list_biUnion_cons]
      simp
    have hS : naiveProjectedSum overlapTris Axis.Z =
        MeasureTheory.volume (trianglePolygon (0, 0) (1, 0) (0, 1)) +
        MeasureTheory.volume (trianglePolygon (0, 0) (1, 0) (0, 1)) := by
      show polygonSumArea (overlapTris.map (projTri Axis.Z)) = _
      rw [hmap]
      unfold polygonSumArea
      simp
    rw [hU, hS]
    exact ENNReal.lt_add_right triangle_volume_ne_top triangle_volume_pos.ne'

/-- C8 counterexample: `compute_cutting_plane_area` passes
`origin=mesh.center` to the slice, and pyvista's `mesh.center` is the
center of the BOUNDING BOX, not the mesh's centroid: on the point set
{(0,0,0), (3,0,0), (0,3,0), (0,0,3)} the bounding-box center is
(3/2, 3/2, 3/2) while the centroid is (3/4, 3/4, 3/4), so the slicing
plane does not pass through the centroid. -/
theorem cutting_plane_center_counterexample :
    (cutting_plane_slice_call
        (Mesh.mk [(0, 0, 0), (3, 0, 0), (0, 3, 0), (0, 0, 3)] [] [])
        (1, 0, 0)).origin =
      pvCenter (Mesh.mk [(0, 0, 0), (3, 0, 0), (0, 3, 0), (0, 0, 3)] [] []) ∧
    (pvCenter (Mesh.mk [(0, 0, 0), (3, 0, 0), (0, 3, 0), (0, 0, 3)] [] [])).1 =
      3 / 2 ∧
    (meshCentroid (Mesh.mk [(0, 0, 0), (3, 0, 0), (0, 3, 0), (0, 0, 3)] [] [])).1 =
      3 / 4 ∧
    pvCenter (Mesh.mk [(0, 0, 0), (3, 0, 0), (0, 3, 0), (0, 0, 3)] [] []) ≠
      meshCentroid (Mesh.mk [(0, 0, 0), (3, 0, 0), (0, 3, 0), (0, 0, 3)] [] []) := by
  refine ⟨rfl, ?_, ?_, ?_⟩
  · norm_num [pvCenter, xMin, xMax, meshXs, listMinD, listMaxD]
  · norm_num [meshCentroid, meshXs]
  · intro h
    have h1 : (pvCenter (Mesh.mk [(0, 0, 0), (3, 0, 0), (0, 3, 0), (0, 0, 3)] [] [])).1 =
        (meshCentroid (Mesh.mk [(0, 0, 0), (3, 0, 0), (0, 3, 0), (0, 0, 3)] [] [])).1 :=
      congrArg Prod.fst h
    norm_num [pvCenter, meshCentroid, xMin, xMax, meshXs, listMinD, listMaxD] at h1

/-- C8 amended: `compute_cutting_plane_area` slices the mesh with one
plane through the center of the mesh's bounding box (pyvista
`mesh.center`) — not its centroid — oriented by the given face normal,
Delaunay-fills the resulting outline and returns the filled mesh's area
(slice, fill and area are external pyvista primitives, taken as
parameters). -/
theorem compute_cutting_plane_area_amended (sliceOp : Mesh → SliceCall → Mesh)
    (delaunayFill : Mesh → Mesh) (pvArea : Mesh → ℚ) (m : Mesh)
    (face_normal : ℚ × ℚ × ℚ) :
    compute_cutting_plane_area sliceOp delaunayFill pvArea m face_normal =
      pvArea (delaunayFill (sliceOp m (cutting_plane_slice_call m face_normal))) ∧
    (cutting_plane_slice_call m face_normal).origin = pvCenter m ∧
    (cutting_plane_slice_call m face_normal).normal = face_normal ∧
    pvCenter m =
      ((xMin m + xMax m) / 2, (yMin m + yMax m) / 2, (zMin m + zMax m) / 2) :=
  ⟨rfl, rfl, rfl, rfl⟩

end WindTunnel
